import Mathlib

/-!
Shallow embedding of the rp-prof sampling CPU profiler core, translated from
src/profiler.rs and src/platform/platform_nix/profiler.rs, together with
theorems settling the frozen claims about the natural language specification.

Machine integers are modelled as Nat or Int with explicit wrapping where the
Rust type can overflow (the i32 sample counter).  External effects reaching the
signal handler (try-lock outcome, frames yielded by the unwinder, the result of
pthread_getname_np, errno perturbation by libc calls) are passed in explicitly
through an environment record, so that the handler itself is a pure function on
the global profiler state.
-/

namespace RpProf

/-- Modelled from the spec: `MAX_DEPTH` is declared in the crate root, which is
not among the provided sources; the spec (section 3, RawStack) gives 128. -/
def MAX_DEPTH : Nat := 128

/-- Modelled from the spec: `MAX_THREAD_NAME` is declared in the crate root,
which is not among the provided sources; the spec (section 3, ThreadTag)
gives 16. -/
def MAX_THREAD_NAME : Nat := 16

/-- SIGPROF signal number (27 on Linux), used to record which signal a
sigaction is installed for. -/
def SIGPROF : Nat := 27

/-- Wrap of a mathematical integer into the i32 range, modelling the release
mode Rust two-sided-complement `i32` arithmetic of `sample_counter`. -/
def wrap32 (x : Int) : Int := (x + 2 ^ 31) % 2 ^ 32 - 2 ^ 31

/-- A stack frame as seen by the handler: the unwinder exposes an instruction
address through `ip()` (spec section 3, Frame). -/
structure Frame where
  ip : Nat
deriving DecidableEq, Repr

/-- The machine context delivered to the handler, reduced to the decoded
program counter: perf_signal_handler reads the PC from the arch and OS
specific register matrix (REG_RIP, pc, __ss.__rip, ...); a null ucontext is
modelled as `none`. -/
structure UContext where
  pc : Nat
deriving DecidableEq, Repr

/-- Modelled from the spec: `UnresolvedFrames` lives in src/frames.rs, which is
not among the provided sources.  Per the spec (section 3, SampleRecord and
StackKey) it packages the captured stack, the NUL-trimmed thread name bytes,
the thread id and the wall timestamp, with structural equality. -/
structure UnresolvedFrames where
  frames : List Frame
  thread_name : List Nat
  thread_id : Nat
  sample_timestamp : Nat
deriving DecidableEq, Repr

/-- Modelled from the spec: the `Collector` lives in src/collector.rs, which is
not among the provided sources.  Per the spec (section 4.6, SampleSink) it is a
fixed capacity table mapping stack keys to counts whose `add` returns an
overflow error when the table cannot accept a new entry; overflow samples are
dropped.  We model it as an association list with a capacity bound. -/
structure Collector where
  entries : List (UnresolvedFrames × Nat)
  capacity : Nat
deriving DecidableEq, Repr

/-- Modelled from the spec: a fresh collector (section 4.6 suggests 8192
slots). -/
def Collector.new : Collector := { entries := [], capacity := 8192 }

/-- Modelled from the spec: bump the count of an existing key. -/
def bump_entry (key : UnresolvedFrames) (count : Nat) :
    List (UnresolvedFrames × Nat) → List (UnresolvedFrames × Nat)
  | [] => []
  | e :: rest =>
    if e.1 = key then (e.1, e.2 + count) :: rest else e :: bump_entry key count rest

/-- Modelled from the spec: `Collector.add` merges the record into the table
and reports overflow with an error when the table is full (section 4.6). -/
def Collector.add (c : Collector) (key : UnresolvedFrames) (count : Nat) :
    Except Unit Collector :=
  if c.entries.any fun e => decide (e.1 = key) then
    .ok { c with entries := bump_entry key count c.entries }
  else if c.entries.length < c.capacity then
    .ok { c with entries := c.entries ++ [(key, count)] }
  else
    .error ()

/-- The error kind returned by the profiler operations, from the spec
(section 7) and the uses in src/profiler.rs; src/error.rs itself is not among
the provided sources. -/
inductive Error where
  | CreatingError
  | Running
  | NotRunning
  | OsError
deriving DecidableEq, Repr

/-- The `Profiler` struct of src/profiler.rs: collector, i32 sample counter,
running flag and the blocklisted address segments. -/
structure Profiler where
  data : Collector
  sample_counter : Int
  running : Bool
  blocklist_segments : List (Nat × Nat)
deriving DecidableEq, Repr

/-- The loop body of `Profiler::is_blocklisted`: scan the recorded segments and
report the first one with `addr > start && addr < end`. -/
def is_blocklisted_go (addr : Nat) : List (Nat × Nat) → Bool
  | [] => false
  | libs :: rest =>
    if addr > libs.1 ∧ addr < libs.2 then true else is_blocklisted_go addr rest

/-- `Profiler::is_blocklisted` from src/profiler.rs. -/
def Profiler.is_blocklisted (p : Profiler) (addr : Nat) : Bool :=
  is_blocklisted_go addr p.blocklist_segments

/-- `Profiler::new` from src/profiler.rs. -/
def Profiler.new : Profiler :=
  { data := Collector.new
    sample_counter := 0
    running := false
    blocklist_segments := [] }

/-- `Profiler::sample` from src/profiler.rs: build the `UnresolvedFrames`
record, increment the i32 `sample_counter`, and hand the record to
`Collector::add`, ignoring its result (`if let Ok(()) = ... {}`). -/
def Profiler.sample (p : Profiler) (backtrace : List Frame) (thread_name : List Nat)
    (thread_id : Nat) (sample_timestamp : Nat) : Profiler :=
  let frames : UnresolvedFrames :=
    { frames := backtrace
      thread_name := thread_name
      thread_id := thread_id
      sample_timestamp := sample_timestamp }
  let p := { p with sample_counter := wrap32 (p.sample_counter + 1) }
  match p.data.add frames 1 with
  | .ok d => { p with data := d }
  | .error _ => p

/-- `Profiler::start` from src/profiler.rs.  The outcome of the
`register_signal_handler` syscall is an input (`reg`); on error the state is
returned unchanged, mirroring the early `?` propagation. -/
def Profiler.start (p : Profiler) (reg : Except Error Unit) :
    Except Error Unit × Profiler :=
  if p.running then (.error .Running, p)
  else
    match reg with
    | .error e => (.error e, p)
    | .ok _ => (.ok (), { p with running := true })

/-- The sigaction flags used by the profiler registrations. -/
inductive SaFlag where
  | SA_SIGINFO
  | SA_RESTART
deriving DecidableEq, Repr

/-- The observable content of a `sigaction` installation: which signal it is
installed for, the flag set, and the signal block mask. -/
structure SigActionInstall where
  signal : Nat
  flags : List SaFlag
  mask : List Nat
deriving DecidableEq, Repr

/-- The sigaction installed by `Profiler::register_signal_handler` in
src/profiler.rs: `SA_SIGINFO | SA_RESTART` with `SigSet::empty()` on
SIGPROF. -/
def register_signal_handler_action : SigActionInstall :=
  { signal := SIGPROF
    flags := [.SA_SIGINFO, .SA_RESTART]
    mask := [] }

/-- The sigaction installed by `register` in
src/platform/platform_nix/profiler.rs: `SA_SIGINFO` with `SigSet::empty()` on
SIGPROF. -/
def platform_nix_register_action : SigActionInstall :=
  { signal := SIGPROF
    flags := [.SA_SIGINFO]
    mask := [] }

/-- Modelled from the spec: the interval timer (src/timer.rs is not among the
provided sources).  The guard only retains the armed `Timer` built by
`Timer::new(frequency)`; section 4.2 of the spec describes the arming, which
has no further observable state here. -/
structure Timer where
  frequency : Int
deriving DecidableEq, Repr

/-- Modelled from the spec: `Timer::new` records the requested frequency. -/
def Timer.new (frequency : Int) : Timer := { frequency := frequency }

/-- `ProfilerGuardBuilder` from src/profiler.rs: the sampling frequency (a
c_int) together with the blocklisted segments. -/
structure ProfilerGuardBuilder where
  frequency : Int
  blocklist_segments : List (Nat × Nat)
deriving DecidableEq, Repr

/-- `ProfilerGuardBuilder::default` from src/profiler.rs. -/
def ProfilerGuardBuilder.default : ProfilerGuardBuilder :=
  { frequency := 99, blocklist_segments := [] }

/-- The `frequency` builder method from src/profiler.rs:
`Self { frequency, ..self }` with no validation.  (Named `set_frequency` here
because the field accessor already carries the source name.) -/
def ProfilerGuardBuilder.set_frequency (b : ProfilerGuardBuilder) (frequency : Int) :
    ProfilerGuardBuilder :=
  { b with frequency := frequency }

/-- `ProfilerGuard` from src/profiler.rs, reduced to the timer it owns (the
static reference to the global profiler lock carries no state). -/
structure ProfilerGuard where
  timer : Option Timer
deriving DecidableEq, Repr

/-- `ProfilerGuardBuilder::build` from src/profiler.rs.  The global
`PROFILER` cell (a `Result<Profiler>`) and the signal registration outcome are
inputs; the function returns the build result together with the new content of
the global cell.  On the Ok branch the blocklist is stored into the profiler
before `start` runs, exactly as in the source. -/
def ProfilerGuardBuilder.build (b : ProfilerGuardBuilder)
    (global : Except Error Profiler) (reg : Except Error Unit) :
    Except Error ProfilerGuard × Except Error Profiler :=
  match global with
  | .error _ => (.error .CreatingError, global)
  | .ok profiler =>
    let profiler := { profiler with blocklist_segments := b.blocklist_segments }
    match profiler.start reg with
    | (.ok _, p2) => (.ok { timer := some (Timer.new b.frequency) }, .ok p2)
    | (.error e, p2) => (.error e, .ok p2)

/-- First loop of `write_thread_name_fallback` (identical in src/profiler.rs
and src/platform/platform_nix/profiler.rs): count the digit positions of the
thread id, `while current_thread as u128 > base && len < MAX_THREAD_NAME
{ base *= 10; len += 1 }`.  The fuel argument only bounds the recursion: with
fuel `MAX_THREAD_NAME - len` the `len < MAX_THREAD_NAME` conjunct always fails
no later than the fuel does, so the semantics matches the Rust loop. -/
def fb_count_fuel (t : Nat) : Nat → Nat → Nat → Nat × Nat
  | 0, len, base => (len, base)
  | fuel + 1, len, base =>
    if base < t ∧ len < MAX_THREAD_NAME then fb_count_fuel t fuel (len + 1) (base * 10)
    else (len, base)

/-- Entry to the first loop with `len = 0`, `base = 1`. -/
def fb_count (t : Nat) : Nat × Nat := fb_count_fuel t MAX_THREAD_NAME 0 1

/-- Second loop of `write_thread_name_fallback`: `while index < len && base > 1
{ base /= 10; name[index] = 48 + (current_thread / base) % 10 (as c_char);
index += 1 }`.  The `try_into` to c_char succeeds when the value fits in i8
(it always does for a digit) and writes 0 otherwise, as in the source.  The
fuel argument only bounds the recursion: starting at `MAX_THREAD_NAME` with
`index = 0` it cannot run out before `index < len ≤ MAX_THREAD_NAME` fails. -/
def fb_write_fuel (t : Nat) : Nat → Nat → Nat → Nat → List Nat → List Nat
  | 0, _index, _base, _len, name => name
  | fuel + 1, index, base, len, name =>
    if index < len ∧ 1 < base then
      let base2 := base / 10
      let digit := 48 + (t / base2) % 10
      let d := if digit ≤ 127 then digit else 0
      fb_write_fuel t fuel (index + 1) base2 len (name.set index d)
    else name

/-- `write_thread_name_fallback` from src/profiler.rs (the platform_nix copy is
byte for byte identical): write the decimal digits of the thread id into the
name buffer in place. -/
def write_thread_name_fallback (t : Nat) (name : List Nat) : List Nat :=
  let lb := fb_count t
  fb_write_fuel t MAX_THREAD_NAME 0 lb.2 lb.1 name

/-- `CStr::from_ptr(...).to_bytes()` applied to the name buffer: the bytes up
to the first NUL. -/
def read_c_str (name : List Nat) : List Nat :=
  name.takeWhile fun b => decide (b ≠ 0)

/-- The ASCII decimal representation of a natural number: its base 10 digits,
most significant first, as ASCII byte values.  This is the spec side notion
(ThreadTag holding "an ASCII decimal representation of the OS thread id"),
written with the Mathlib digits function, independent of the code loops. -/
def decimal_digits (t : Nat) : List Nat :=
  (Nat.digits 10 t).reverse.map fun d => 48 + d

/-- The per-frame callback of `perf_signal_handler` in src/profiler.rs.  The
`frame-pointer` cargo feature is the Bool `fp`: only with the feature enabled
does the callback consult the blocklist (the `#[cfg(feature = "frame-pointer")]`
block); then it appends to the inline buffer while `index < MAX_DEPTH`.
State is `(index, buffer)`; the returned Bool tells the unwinder whether to
continue. -/
def core_callback (fp : Bool) (p : Profiler) (st : Nat × List Frame) (frame : Frame) :
    Bool × (Nat × List Frame) :=
  if fp && p.is_blocklisted frame.ip then (false, st)
  else if st.1 < MAX_DEPTH then (true, (st.1 + 1, st.2 ++ [frame]))
  else (false, st)

/-- The per-frame callback of `perf_signal_handler` in
src/platform/platform_nix/profiler.rs: the blocklist check is not gated behind
any feature, so it applies whatever unwinder backend the build uses. -/
def nix_callback (p : Profiler) (st : Nat × List Frame) (frame : Frame) :
    Bool × (Nat × List Frame) :=
  if p.is_blocklisted frame.ip then (false, st)
  else if st.1 < MAX_DEPTH then (true, (st.1 + 1, st.2 ++ [frame]))
  else (false, st)

/-- `TraceImpl::trace(ucontext, callback)`: the unwinder drives the frames it
recovers (an input of the model) through the callback, innermost first,
stopping when the callback returns false or the frames end (spec
section 4.4). -/
def trace_run {σ : Type} (cb : σ → Frame → Bool × σ) : List Frame → σ → σ
  | [], st => st
  | f :: fs, st =>
    let r := cb st f
    if r.1 then trace_run cb fs r.2 else r.2

/-- The external effects that reach one invocation of `perf_signal_handler`:
whether `PROFILER.try_write()` succeeds, the frames the unwinder yields, the
result of `pthread_self`, the buffer `pthread_getname_np` fills on success
(`none` means it failed and the fallback runs), the timestamp, and the errno
value the libc calls of the sampling path leave behind. -/
structure HandlerEnv where
  try_write : Bool
  frames : List Frame
  thread_id : Nat
  getname : Option (List Nat)
  timestamp : Nat
  body_errno : Int
deriving DecidableEq, Repr

/-- Decidable equality for `Except`, needed to evaluate statements about the
global `Result<Profiler>` cell on concrete inputs. -/
def except_eq_dec {ε α : Type} [DecidableEq ε] [DecidableEq α] :
    (x y : Except ε α) → Decidable (x = y)
  | .ok a, .ok b =>
    if h : a = b then .isTrue (congrArg Except.ok h)
    else .isFalse fun hc => h (Except.ok.inj hc)
  | .ok _, .error _ => .isFalse fun hc => Except.noConfusion hc
  | .error _, .ok _ => .isFalse fun hc => Except.noConfusion hc
  | .error e, .error f =>
    if h : e = f then .isTrue (congrArg Except.error h)
    else .isFalse fun hc => h (Except.error.inj hc)

instance {ε α : Type} [DecidableEq ε] [DecidableEq α] : DecidableEq (Except ε α) :=
  except_eq_dec

/-- The process-wide state the handler touches: the global `PROFILER` cell and
the thread errno. -/
structure GlobalState where
  profiler : Except Error Profiler
  errno : Int
deriving DecidableEq, Repr

/-- `write_thread_name` from src/profiler.rs: use the buffer that
`pthread_getname_np` filled when it succeeded, otherwise run the fallback on a
zeroed buffer of MAX_THREAD_NAME bytes. -/
def write_thread_name (env : HandlerEnv) : List Nat :=
  match env.getname with
  | some buf => buf
  | none => write_thread_name_fallback env.thread_id (List.replicate MAX_THREAD_NAME 0)

/-- The body of `perf_signal_handler` from src/profiler.rs, between the
`ErrnoProtector` construction and its drop: try-lock the global cell; if the
cell holds a profiler, decode the PC (when the ucontext is non-null) and drop
the sample if it is blocklisted; otherwise unwind through the per-frame
callback, fill the thread name, and call `Profiler::sample`.  The libc calls
on the sampling path may leave any errno behind (`env.body_errno`). -/
def handler_body (fp : Bool) (env : HandlerEnv) (ucontext : Option UContext)
    (g : GlobalState) : GlobalState :=
  if env.try_write then
    match g.profiler with
    | .error e => { g with profiler := .error e }
    | .ok profiler =>
      let blocked :=
        match ucontext with
        | some uc => profiler.is_blocklisted uc.pc
        | none => false
      if blocked then g
      else
        let st := trace_run (core_callback fp profiler) env.frames (0, [])
        let name := read_c_str (write_thread_name env)
        let p2 := profiler.sample st.2 name env.thread_id env.timestamp
        { profiler := .ok p2, errno := env.body_errno }
  else g

/-- `perf_signal_handler` from src/profiler.rs: the `ErrnoProtector` snapshots
errno before anything else and its drop restores the snapshot on every exit
path. -/
def perf_signal_handler (fp : Bool) (env : HandlerEnv) (ucontext : Option UContext)
    (g : GlobalState) : GlobalState :=
  let saved := g.errno
  let g2 := handler_body fp env ucontext g
  { g2 with errno := saved }

/-- The profiler state whose i32 sample counter sits at the i32 maximum. -/
def saturated_profiler : Profiler :=
  { Profiler.new with sample_counter := 2 ^ 31 - 1, running := true }

/-- A not-running profiler state for exercising the handler. -/
def idle_profiler : Profiler :=
  { Profiler.new with running := false }

/-- A handler environment where the try-lock succeeds, the unwinder yields one
frame, and pthread_getname_np fails so the fallback runs. -/
def sample_env : HandlerEnv :=
  { try_write := true
    frames := [{ ip := 100 }]
    thread_id := 5
    getname := none
    timestamp := 0
    body_errno := 7 }

/-- A global state holding the idle profiler with errno 3. -/
def idle_global : GlobalState :=
  { profiler := .ok idle_profiler, errno := 3 }

/-- A profiler whose blocklist holds the single segment (10, 20). -/
def blocklisting_profiler : Profiler :=
  { Profiler.new with running := true, blocklist_segments := [(10, 20)] }

/-- A global state holding the blocklisting profiler with errno 11. -/
def blocklisting_global : GlobalState :=
  { profiler := .ok blocklisting_profiler, errno := 11 }

lemma is_blocklisted_go_iff (addr : Nat) (segs : List (Nat × Nat)) :
    is_blocklisted_go addr segs = true ↔
      ∃ s e, (s, e) ∈ segs ∧ s < addr ∧ addr < e := by
  induction segs with
  | nil => simp [is_blocklisted_go]
  | cons hd tl ih =>
    simp only [is_blocklisted_go]
    by_cases h : addr > hd.1 ∧ addr < hd.2
    · rw [if_pos h]
      simp only [true_iff]
      exact ⟨hd.1, hd.2, by simp, h.1, h.2⟩
    · rw [if_neg h, ih]
      constructor
      · rintro ⟨s, e, hmem, hs, he⟩
        exact ⟨s, e, List.mem_cons_of_mem _ hmem, hs, he⟩
      · rintro ⟨s, e, hmem, hs, he⟩
        rcases List.mem_cons.mp hmem with heq | hmem2
        · exact absurd ⟨by simpa [← heq] using hs, by simpa [← heq] using he⟩ h
        · exact ⟨s, e, hmem2, hs, he⟩

/-- C7: `is_blocklisted(addr)` returns true exactly when some recorded segment
`(start, end)` satisfies `start < addr` and `addr < end`, both inequalities
strict, so segment boundaries are never classified as blocklisted. -/
theorem c7_is_blocklisted_iff (p : Profiler) (addr : Nat) :
    p.is_blocklisted addr = true ↔
      ∃ s e, (s, e) ∈ p.blocklist_segments ∧ s < addr ∧ addr < e :=
  is_blocklisted_go_iff addr p.blocklist_segments

lemma sample_counter_eq (p : Profiler) (bt : List Frame) (tn : List Nat)
    (tid ts : Nat) :
    (p.sample bt tn tid ts).sample_counter = wrap32 (p.sample_counter + 1) := by
  unfold Profiler.sample
  dsimp only
  split <;> rfl

lemma wrap32_eq_self {x : Int} (h1 : -(2 ^ 31) ≤ x) (h2 : x ≤ 2 ^ 31 - 1) :
    wrap32 x = x := by
  have e1 : (2 : Int) ^ 31 = 2147483648 := by norm_num
  have e2 : (2 : Int) ^ 32 = 4294967296 := by norm_num
  unfold wrap32
  rw [e1, e2]
  rw [e1] at h1 h2
  omega

/-- C9: calling `Profiler::start` while `running` is already true fails with
the `Running` error and returns the profiler state unchanged, so the existing
guard remains the only one. -/
theorem c9_start_while_running (p : Profiler) (reg : Except Error Unit)
    (h : p.running = true) :
    p.start reg = (.error .Running, p) := by
  simp [Profiler.start, h]

theorem c9_start_while_running_witness :
    Profiler.start { Profiler.new with running := true } (.ok ())
      = (.error .Running, { Profiler.new with running := true }) :=
  c9_start_while_running { Profiler.new with running := true } (.ok ()) rfl

/-- C8 counterexample: at a sample counter of `2 ^ 31 - 1` (the i32 maximum,
reached after that many samples) the next call to `sample` wraps the counter to
`-(2 ^ 31)` instead of incrementing it by one, so the counter is not
monotonically non-decreasing. -/
theorem c8_counterexample :
    saturated_profiler.sample_counter = 2 ^ 31 - 1
    ∧ (saturated_profiler.sample [] [] 0 0).sample_counter = -(2 ^ 31) := by
  constructor <;> decide

/-- C8 (amended): every call to `Profiler::sample` increments `sample_counter`
by exactly one modulo 2^32 (i32 wrapping arithmetic), regardless of whether the
collector add overflows, and by exactly one whenever the counter is inside the
i32 range and strictly below the i32 maximum. -/
theorem c8_amended (p : Profiler) (bt : List Frame) (tn : List Nat)
    (tid ts : Nat) :
    (p.sample bt tn tid ts).sample_counter = wrap32 (p.sample_counter + 1)
    ∧ (-(2 ^ 31) ≤ p.sample_counter → p.sample_counter < 2 ^ 31 - 1 →
        (p.sample bt tn tid ts).sample_counter = p.sample_counter + 1) := by
  refine ⟨sample_counter_eq p bt tn tid ts, fun h1 h2 => ?_⟩
  rw [sample_counter_eq p bt tn tid ts]
  have e1 : (2 : Int) ^ 31 = 2147483648 := by norm_num
  apply wrap32_eq_self
  · rw [e1] at h1 ⊢
    omega
  · rw [e1] at h2 ⊢
    omega

theorem c8_amended_witness :
    (Profiler.new.sample [] [] 0 0).sample_counter
      = Profiler.new.sample_counter + 1 :=
  (c8_amended Profiler.new [] [] 0 0).2 (by norm_num [Profiler.new])
    (by norm_num [Profiler.new])

/-- C10: the builder stores any integer frequency unchanged (no validation),
and the success or failure shape of `build` - including which error it fails
with and the resulting global profiler state - never depends on the frequency;
with a fresh profiler state, build succeeds for every frequency, returning a
guard whose timer carries that frequency. -/
theorem c10_frequency_unvalidated (b : ProfilerGuardBuilder) (hz hz2 : Int)
    (global : Except Error Profiler) (reg : Except Error Unit) :
    (b.set_frequency hz).frequency = hz
    ∧ ((b.set_frequency hz).build global reg).1.map (fun _ => ())
        = ((b.set_frequency hz2).build global reg).1.map (fun _ => ())
    ∧ ((b.set_frequency hz).build global reg).2
        = ((b.set_frequency hz2).build global reg).2
    ∧ ((b.set_frequency hz).build (.ok Profiler.new) (.ok ())).1
        = .ok { timer := some (Timer.new hz) } := by
  refine ⟨rfl, ?_, ?_, rfl⟩
  all_goals
    cases global with
    | error e => rfl
    | ok profiler =>
      simp only [ProfilerGuardBuilder.build, ProfilerGuardBuilder.set_frequency]
      rcases h : Profiler.start { profiler with blocklist_segments := b.blocklist_segments } reg
        with ⟨r, p2⟩
      cases r <;> rfl

/-- C2 counterexample: the platform_nix `register` path installs its SIGPROF
sigaction without `SA_RESTART`, refuting the claim that every registration path
uses flags `SA_SIGINFO | SA_RESTART`. -/
theorem c2_counterexample :
    SaFlag.SA_RESTART ∉ platform_nix_register_action.flags := by
  decide

/-- C2 (amended): both registration paths install a SIGPROF sigaction with an
empty block mask and `SA_SIGINFO` set; the core `register_signal_handler` also
sets `SA_RESTART`, while the platform_nix `register` function does not. -/
theorem c2_amended :
    (register_signal_handler_action.signal = SIGPROF
      ∧ register_signal_handler_action.mask = []
      ∧ SaFlag.SA_SIGINFO ∈ register_signal_handler_action.flags
      ∧ SaFlag.SA_RESTART ∈ register_signal_handler_action.flags)
    ∧ (platform_nix_register_action.signal = SIGPROF
      ∧ platform_nix_register_action.mask = []
      ∧ SaFlag.SA_SIGINFO ∈ platform_nix_register_action.flags
      ∧ SaFlag.SA_RESTART ∉ platform_nix_register_action.flags) := by
  decide

lemma sample_running_eq (p : Profiler) (bt : List Frame) (tn : List Nat)
    (tid ts : Nat) :
    (p.sample bt tn tid ts).running = p.running := by
  unfold Profiler.sample
  dsimp only
  split <;> rfl

/-- C5: `perf_signal_handler` restores the errno it found on entry on every
exit path: try-lock failure, a failed profiler cell, the blocklisted-PC early
return, and the full sampling path (whatever errno the libc calls of that path
leave behind). -/
theorem c5_errno_preserved (fp : Bool) (env : HandlerEnv) (ucontext : Option UContext)
    (g : GlobalState) :
    (perf_signal_handler fp env ucontext g).errno = g.errno := rfl

/-- C6: when the PC decoded from the machine context lies inside a blocklisted
segment, the handler returns without sampling: the profiler cell (collector and
sample counter included) is unchanged. -/
theorem c6_blocklisted_pc_drops_sample (fp : Bool) (env : HandlerEnv) (uc : UContext)
    (g : GlobalState) (p : Profiler) (hok : g.profiler = .ok p)
    (hblock : p.is_blocklisted uc.pc = true) :
    (perf_signal_handler fp env (some uc) g).profiler = g.profiler := by
  by_cases htw : env.try_write
  · simp [perf_signal_handler, handler_body, htw, hok, hblock]
  · simp [perf_signal_handler, handler_body, htw]

theorem c6_witness :
    (perf_signal_handler false sample_env (some { pc := 15 }) blocklisting_global).profiler
      = blocklisting_global.profiler :=
  c6_blocklisted_pc_drops_sample false sample_env { pc := 15 } blocklisting_global
    blocklisting_profiler rfl (by decide)

/-- C1 counterexample: with `running = false`, a successful try-lock and an Ok
profiler cell, the handler does not short-circuit: on a concrete idle state it
unwinds and records a sample, leaving the sample counter changed from 0
to 1. -/
theorem c1_counterexample :
    idle_global.profiler.map Profiler.running = .ok false
    ∧ (perf_signal_handler false sample_env none idle_global).profiler.map
        Profiler.sample_counter ≠ idle_global.profiler.map Profiler.sample_counter := by
  decide

/-- C1 (amended): `perf_signal_handler` never reads the `running` flag.
Whenever the try-lock succeeds and the cell holds a profiler, it unwinds and
records a sample even with `running = false` (the counter advances by one,
wrapped) and the `running` flag itself is left as it was; in operation the
handler is only installed while `running` is true. -/
theorem c1_amended (fp : Bool) (env : HandlerEnv) (g : GlobalState) (p : Profiler)
    (hok : g.profiler = .ok p) (hlock : env.try_write = true)
    (hrun : p.running = false) :
    (perf_signal_handler fp env none g).profiler.map Profiler.sample_counter
      = .ok (wrap32 (p.sample_counter + 1))
    ∧ (perf_signal_handler fp env none g).profiler.map Profiler.running
      = .ok false := by
  constructor
  · simp [perf_signal_handler, handler_body, hlock, hok, Except.map, sample_counter_eq]
  · simp [perf_signal_handler, handler_body, hlock, hok, Except.map, sample_running_eq,
      hrun]

theorem c1_amended_witness :
    (perf_signal_handler false sample_env none idle_global).profiler.map
        Profiler.sample_counter = .ok (wrap32 (idle_profiler.sample_counter + 1))
    ∧ (perf_signal_handler false sample_env none idle_global).profiler.map
        Profiler.running = .ok false :=
  c1_amended false sample_env idle_global idle_profiler rfl rfl rfl

/-- C4 counterexample: the per-frame callback of the platform_nix handler is
not gated behind the frame-pointer feature: on a blocklisted frame ip it stops
unwinding and drops the frame even though the inline buffer has room, whatever
unwinder backend the build uses. -/
theorem c4_counterexample :
    nix_callback blocklisting_profiler (0, []) { ip := 15 } = (false, (0, []))
    ∧ 0 < MAX_DEPTH
    ∧ blocklisting_profiler.is_blocklisted 15 = true := by
  decide

/-- C4 (amended): in the core handler the per-frame blocklist stop happens
exactly when the frame-pointer feature is enabled - without it a blocklisted
frame is still appended while the buffer is below MAX_DEPTH - but the
platform_nix handler callback stops on a blocklisted frame ip
unconditionally. -/
theorem c4_amended (p : Profiler) (st : Nat × List Frame) (f : Frame)
    (hlen : st.1 < MAX_DEPTH) (hblock : p.is_blocklisted f.ip = true) :
    core_callback false p st f = (true, (st.1 + 1, st.2 ++ [f]))
    ∧ core_callback true p st f = (false, st)
    ∧ nix_callback p st f = (false, st)
    ∧ core_callback false p (MAX_DEPTH, st.2) f = (false, (MAX_DEPTH, st.2)) := by
  refine ⟨?_, ?_, ?_, ?_⟩
  · simp [core_callback, hlen]
  · simp [core_callback, hblock]
  · simp [nix_callback, hblock]
  · simp [core_callback]

theorem c4_amended_witness :
    core_callback false blocklisting_profiler (0, []) { ip := 15 }
        = (true, (1, [{ ip := 15 }]))
    ∧ core_callback true blocklisting_profiler (0, []) { ip := 15 } = (false, (0, []))
    ∧ nix_callback blocklisting_profiler (0, []) { ip := 15 } = (false, (0, []))
    ∧ core_callback false blocklisting_profiler (MAX_DEPTH, []) { ip := 15 }
        = (false, (MAX_DEPTH, [])) := by
  have h := c4_amended blocklisting_profiler (0, []) { ip := 15 } (by decide) (by decide)
  simpa using h

lemma getD_set_lt (l : List Nat) (i j v : Nat) (hi : i < l.length) :
    (l.set i v).getD j 0 = if i = j then v else l.getD j 0 := by
  by_cases hij : i = j
  · subst hij
    rw [if_pos rfl, List.getD_eq_getElem _ 0 (by simpa using hi)]
    simp
  · rw [if_neg hij]
    by_cases hj : j < l.length
    · rw [List.getD_eq_getElem _ 0 (by simpa using hj), List.getD_eq_getElem _ 0 hj,
        List.getElem_set]
      rw [if_neg hij]
    · rw [List.getD_eq_default _ 0 (by simpa using not_lt.mp hj),
        List.getD_eq_default _ 0 (not_lt.mp hj)]

lemma ext_getD (l1 l2 : List Nat) (hlen : l1.length = l2.length)
    (h : ∀ j, l1.getD j 0 = l2.getD j 0) : l1 = l2 := by
  apply List.ext_getElem hlen
  intro i h1 h2
  have hi := h i
  rwa [List.getD_eq_getElem _ _ h1, List.getD_eq_getElem _ _ h2] at hi

lemma getD_replicate_zero (n j : Nat) : (List.replicate n (0 : Nat)).getD j 0 = 0 := by
  by_cases hj : j < n
  · rw [List.getD_eq_getElem _ 0 (by simpa using hj)]
    simp
  · rw [List.getD_eq_default _ 0 (by simpa using not_lt.mp hj)]

lemma fb_write_fuel_length (t : Nat) :
    ∀ fuel index base len (name : List Nat),
      (fb_write_fuel t fuel index base len name).length = name.length := by
  intro fuel
  induction fuel with
  | zero => intro index base len name; rfl
  | succ fuel ih =>
    intro index base len name
    simp only [fb_write_fuel]
    split
    · rw [ih]
      simp
    · rfl

lemma fb_count_fuel_eq (t : Nat) (hcap : Nat.clog 10 t ≤ MAX_THREAD_NAME) :
    ∀ fuel len, len ≤ Nat.clog 10 t → MAX_THREAD_NAME ≤ fuel + len →
      fb_count_fuel t fuel len (10 ^ len) = (Nat.clog 10 t, 10 ^ Nat.clog 10 t) := by
  intro fuel
  induction fuel with
  | zero =>
    intro len hlen hfuel
    have hl : len = Nat.clog 10 t := by
      have h16 : MAX_THREAD_NAME ≤ len := by simpa using hfuel
      omega
    rw [hl]
    rfl
  | succ fuel ih =>
    intro len hlen hfuel
    rcases lt_or_eq_of_le hlen with hlt | heq
    · have hbase : 10 ^ len < t := (Nat.pow_lt_iff_lt_clog (by norm_num)).mpr hlt
      have hlen16 : len < MAX_THREAD_NAME := lt_of_lt_of_le hlt hcap
      simp only [fb_count_fuel]
      rw [if_pos ⟨hbase, hlen16⟩]
      have hstep : 10 ^ len * 10 = 10 ^ (len + 1) := (pow_succ 10 len).symm
      rw [hstep]
      exact ih (len + 1) hlt (by omega)
    · have hnot : ¬ 10 ^ len < t := by
        rw [heq]
        exact not_lt.mpr (Nat.le_pow_clog (by norm_num) t)
      simp only [fb_count_fuel]
      rw [if_neg fun hc => hnot hc.1, heq]

lemma clog_eq_log_add_one (t : Nat) (ht : 2 ≤ t) (hnp : ∀ k, t ≠ 10 ^ k) :
    Nat.clog 10 t = Nat.log 10 t + 1 := by
  have h1 : Nat.clog 10 t ≤ Nat.log 10 t + 1 := by
    rw [← Nat.le_pow_iff_clog_le (by norm_num)]
    exact le_of_lt (Nat.lt_pow_succ_log_self (by norm_num) t)
  have h2 : Nat.log 10 t < Nat.clog 10 t := by
    rw [← Nat.pow_lt_iff_lt_clog (by norm_num)]
    rcases lt_or_eq_of_le (Nat.pow_log_le_self 10 (show t ≠ 0 by omega)) with h | h
    · exact h
    · exact absurd h.symm (hnp (Nat.log 10 t))
  omega

lemma fb_write_fuel_getD (t L : Nat) :
    ∀ fuel index (name : List Nat), index ≤ L → L ≤ name.length →
      name.length ≤ fuel + index →
      ∀ j, (fb_write_fuel t fuel index (10 ^ (L - index)) L name).getD j 0
        = if index ≤ j ∧ j < L then 48 + t / 10 ^ (L - 1 - j) % 10
          else name.getD j 0 := by
  intro fuel
  induction fuel with
  | zero =>
    intro index name hiL hLn hfuel j
    have hnc : ¬ (index ≤ j ∧ j < L) := by omega
    rw [if_neg hnc]
    rfl
  | succ fuel ih =>
    intro index name hiL hLn hfuel j
    by_cases hidx : index < L
    · have hbase : 1 < 10 ^ (L - index) := by
        have h1 : 1 ≤ L - index := by omega
        calc 1 < 10 ^ 1 := by norm_num
          _ ≤ 10 ^ (L - index) := Nat.pow_le_pow_right (by norm_num) h1
      simp only [fb_write_fuel]
      rw [if_pos ⟨hidx, hbase⟩]
      have hb2 : 10 ^ (L - index) / 10 = 10 ^ (L - (index + 1)) := by
        have h1 : L - index = (L - (index + 1)) + 1 := by omega
        rw [h1, pow_succ, Nat.mul_div_cancel _ (by norm_num)]
      rw [hb2]
      have hmod : t / 10 ^ (L - (index + 1)) % 10 < 10 :=
        Nat.mod_lt _ (by norm_num)
      rw [if_pos (by omega : 48 + t / 10 ^ (L - (index + 1)) % 10 ≤ 127)]
      rw [ih (index + 1) (name.set index (48 + t / 10 ^ (L - (index + 1)) % 10))
        (by omega) (by simpa using hLn) (by simpa using by omega) j]
      by_cases hj1 : index + 1 ≤ j ∧ j < L
      · rw [if_pos hj1, if_pos (by omega : index ≤ j ∧ j < L)]
      · rw [if_neg hj1, getD_set_lt name index j _ (by omega)]
        by_cases hje : index = j
        · rw [if_pos hje, if_pos (by omega : index ≤ j ∧ j < L)]
          have he : L - (index + 1) = L - 1 - j := by omega
          rw [he]
        · rw [if_neg hje, if_neg (by omega : ¬ (index ≤ j ∧ j < L))]
    · simp only [fb_write_fuel]
      rw [if_neg fun hc => hidx hc.1]
      rw [if_neg (by omega : ¬ (index ≤ j ∧ j < L))]

lemma digits_eq_range_map : ∀ t : Nat, 1 ≤ t →
    Nat.digits 10 t = (List.range (Nat.log 10 t + 1)).map fun i => t / 10 ^ i % 10 := by
  intro t
  induction t using Nat.strong_induction_on with
  | _ t ih =>
    intro ht
    by_cases hsmall : t < 10
    · have hlog : Nat.log 10 t = 0 := Nat.log_eq_zero_iff.mpr (Or.inl hsmall)
      have hdiv : t / 10 = 0 := Nat.div_eq_of_lt hsmall
      rw [Nat.digits_def' (by norm_num : (1:Nat) < 10) (by omega), hdiv, Nat.digits_zero,
        hlog]
      have hr1 : List.range 1 = [0] := rfl
      rw [hr1]
      simp [Nat.mod_eq_of_lt hsmall]
    · push_neg at hsmall
      have hdiv1 : 1 ≤ t / 10 := (Nat.one_le_div_iff (by norm_num)).mpr hsmall
      have hlt : t / 10 < t := Nat.div_lt_self (by omega) (by norm_num)
      have ihd := ih (t / 10) hlt hdiv1
      have hlog : Nat.log 10 t = Nat.log 10 (t / 10) + 1 := by
        have hpos : 0 < Nat.log 10 t := Nat.log_pos (by norm_num) hsmall
        rw [Nat.log_div_base]
        omega
      rw [Nat.digits_def' (by norm_num : (1:Nat) < 10) (by omega), ihd, hlog]
      conv_rhs => rw [List.range_succ_eq_map, List.map_cons, List.map_map]
      refine congrArg₂ List.cons ?_ ?_
      · simp
      · apply List.map_congr_left
        intro i _
        have hdd : t / 10 / 10 ^ i = t / 10 ^ (i + 1) := by
          rw [Nat.div_div_eq_div_mul, pow_succ, mul_comm]
        simp [Function.comp, hdd]


lemma reverse_range_map (n : Nat) (f : Nat → Nat) :
    ((List.range n).map f).reverse = (List.range n).map fun i => f (n - 1 - i) := by
  apply List.ext_getElem
  · simp
  · intro i h1 h2
    simp [List.getElem_reverse]

lemma fallback_digits (t : Nat) (h2 : 2 ≤ t) (hlt : t < 10 ^ MAX_THREAD_NAME)
    (hnp : ∀ k, t ≠ 10 ^ k) :
    write_thread_name_fallback t (List.replicate MAX_THREAD_NAME 0)
      = (List.range (Nat.log 10 t + 1)).map
          (fun j => 48 + t / 10 ^ (Nat.log 10 t + 1 - 1 - j) % 10)
        ++ List.replicate (MAX_THREAD_NAME - (Nat.log 10 t + 1)) 0 := by
  have hclog : Nat.clog 10 t = Nat.log 10 t + 1 := clog_eq_log_add_one t h2 hnp
  have hcap : Nat.clog 10 t ≤ MAX_THREAD_NAME := by
    rw [← Nat.le_pow_iff_clog_le (by norm_num)]
    omega
  have hcount : fb_count t = (Nat.clog 10 t, 10 ^ Nat.clog 10 t) := by
    have h0 : (1 : Nat) = 10 ^ 0 := rfl
    unfold fb_count
    rw [h0]
    exact fb_count_fuel_eq t hcap MAX_THREAD_NAME 0 (by omega) (by omega)
  set L := Nat.log 10 t + 1 with hL
  have hL16 : L ≤ MAX_THREAD_NAME := by omega
  have hbuf : write_thread_name_fallback t (List.replicate MAX_THREAD_NAME 0)
      = fb_write_fuel t MAX_THREAD_NAME 0 (10 ^ L) L (List.replicate MAX_THREAD_NAME 0) := by
    unfold write_thread_name_fallback
    rw [hcount, hclog]
  rw [hbuf]
  apply ext_getD
  · rw [fb_write_fuel_length]
    simp
    omega
  · intro j
    have hchar := fb_write_fuel_getD t L MAX_THREAD_NAME 0
      (List.replicate MAX_THREAD_NAME 0) (by omega) (by simpa using hL16) (by simp) j
    rw [Nat.sub_zero] at hchar
    rw [hchar]
    by_cases hj : j < L
    · rw [if_pos ⟨Nat.zero_le j, hj⟩,
        List.getD_append _ _ 0 j (by simpa using hj)]
      rw [List.getD_eq_getElem _ 0 (by simpa using hj)]
      simp
    · rw [if_neg (by omega : ¬ (0 ≤ j ∧ j < L)), getD_replicate_zero]
      by_cases hj16 : j < MAX_THREAD_NAME
      · rw [List.getD_append_right _ _ 0 j (by simpa using by omega)]
        rw [getD_replicate_zero]
      · rw [List.getD_eq_default _ 0 (by simp; omega)]

/-- C3 (amended): for every thread id `t` with `2 ≤ t < 10 ^ MAX_THREAD_NAME`
that is not a power of ten, reading the buffer up to the first NUL after
`write_thread_name_fallback` yields exactly the ASCII decimal digits of `t`.
(The digit-count loop uses a strict comparison, so at `t = 0` and `t = 1`
nothing is written and at `t = 10 ^ k` the buffer holds `k` bytes of the
digit 0 instead; ids of 17 or more digits are truncated.) -/
theorem c3_amended (t : Nat) (h2 : 2 ≤ t) (hlt : t < 10 ^ MAX_THREAD_NAME)
    (hnp : ∀ k, t ≠ 10 ^ k) :
    read_c_str (write_thread_name_fallback t (List.replicate MAX_THREAD_NAME 0))
      = decimal_digits t := by
  rw [fallback_digits t h2 hlt hnp]
  set L := Nat.log 10 t + 1 with hL
  set dl := (List.range L).map fun j => 48 + t / 10 ^ (L - 1 - j) % 10 with hdl
  have hall : ∀ x ∈ dl, (fun b => decide (b ≠ 0)) x = true := by
    intro x hx
    rw [hdl] at hx
    rcases List.mem_map.mp hx with ⟨j, _, hj⟩
    simp only [decide_eq_true_eq]
    omega
  have htw : dl.takeWhile (fun b => decide (b ≠ 0)) = dl :=
    List.takeWhile_eq_self_iff.mpr hall
  unfold read_c_str
  rw [List.takeWhile_append, htw, if_pos rfl, List.takeWhile_replicate]
  rw [if_neg (by simp)]
  rw [List.append_nil]
  rw [hdl, decimal_digits, digits_eq_range_map t (by omega), reverse_range_map]
  rw [List.map_map]
  apply List.map_congr_left
  intro j _
  simp [Function.comp]

theorem c3_amended_witness :
    read_c_str (write_thread_name_fallback 5 (List.replicate MAX_THREAD_NAME 0))
      = decimal_digits 5 :=
  c3_amended 5 (by norm_num) (by norm_num [MAX_THREAD_NAME])
    (by
      intro k
      cases k with
      | zero => norm_num
      | succ m =>
        have h10 : 10 ≤ 10 ^ (m + 1) := by
          calc 10 = 10 ^ 1 := by norm_num
            _ ≤ 10 ^ (m + 1) := Nat.pow_le_pow_right (by norm_num) (by omega)
        omega)

/-- C3 counterexample: at thread id 1 the fallback writes nothing (the digit
count loop requires the id to exceed base strictly, and 1 does not exceed 1),
so the NUL-trimmed buffer is empty while the ASCII decimal representation of 1
is the single byte 49. -/
theorem c3_counterexample :
    read_c_str (write_thread_name_fallback 1 (List.replicate MAX_THREAD_NAME 0))
      ≠ decimal_digits 1 := by
  have hlhs : read_c_str (write_thread_name_fallback 1 (List.replicate MAX_THREAD_NAME 0))
      = [] := by decide
  have hrhs : decimal_digits 1 = [49] := by
    unfold decimal_digits
    rw [Nat.digits_def' (by norm_num : (1:Nat) < 10) (by norm_num)]
    norm_num
  rw [hlhs, hrhs]
  simp

end RpProf
